import Mathlib

/-!
Shallow embedding of the kindle_bot scheduling, retry and reconciliation core.

Source files embedded here:
- src/utils/utils.go: getIndexByTime, ProcessSlot, requestWithBackoff,
  isRetryableError, FetchNotifiedASINs, GetBook, MakeBook
- src/cmd/sale-checker/main.go: getLastProcessedIndex, getNextProcessingSegment,
  checkBooksForSales, extractSaleConditions, replaceProcessedSegment, process

Modelling conventions:
- Go int and int64 values that stay non-negative on all paths in play are ℕ;
  values that can be negative (parsed cursor strings) are ℤ.
- Go float64 money amounts are ℚ. The claims under study never depend on
  binary rounding of float64, only on order comparisons of small decimal
  amounts, where ℚ and float64 agree.
- Go runtime panics (integer division by zero, slicing with a negative index)
  are modelled as the value none of an Option result.
- Logging, Slack or Mastodon notification and CloudWatch metrics are purely
  observational in the source and are dropped from the embedding.
-/

namespace KindleBot

/-! ### Go string helpers

`goContains` models strings.Contains, `goAtoi` models strconv.Atoi and
`goScanInt` models fmt.Sscanf with a single %d verb, for ASCII decimal
inputs (int64 overflow of astronomically long digit strings is out of
scope: every cursor string in play is short). -/

/-- Does the first list occur at the head of the second list? -/
def leadsWith : List Char → List Char → Bool
  | [], _ => true
  | _ :: _, [] => false
  | p :: ps, c :: cs => (p = c) && leadsWith ps cs

/-- Does the pattern (first argument) occur anywhere inside the list? -/
def containsPat (pat : List Char) : List Char → Bool
  | [] => leadsWith pat []
  | c :: cs => leadsWith pat (c :: cs) || containsPat pat cs

/-- Model of Go strings.Contains s pat. -/
def goContains (s pat : String) : Bool :=
  containsPat pat.toList s.toList

/-- Decimal value of a list of ASCII digits, most significant first. -/
def digitsToNat (ds : List Char) : ℕ :=
  ds.foldl (fun a c => a * 10 + (c.toNat - 48)) 0

/-- Model of Go strconv.Atoi: the whole string must be an optionally signed
decimal number, otherwise an error (none). -/
def goAtoi (s : String) : Option ℤ :=
  match s.toList with
  | '-' :: rest =>
      if rest ≠ [] ∧ rest.all Char.isDigit then some (-(digitsToNat rest : ℤ)) else none
  | '+' :: rest =>
      if rest ≠ [] ∧ rest.all Char.isDigit then some (digitsToNat rest : ℤ) else none
  | cs =>
      if cs ≠ [] ∧ cs.all Char.isDigit then some (digitsToNat cs : ℤ) else none

/-- Model of Go fmt.Sscanf(s, d-verb, and target): skip leading spaces, read an
optionally signed run of digits (at least one), ignore any trailing text. -/
def goScanInt (s : String) : Option ℤ :=
  match s.toList.dropWhile (· = ' ') with
  | '-' :: rest =>
      let ds := rest.takeWhile Char.isDigit
      if ds = [] then none else some (-(digitsToNat ds : ℤ))
  | '+' :: rest =>
      let ds := rest.takeWhile Char.isDigit
      if ds = [] then none else some (digitsToNat ds : ℤ)
  | cs =>
      let ds := cs.takeWhile Char.isDigit
      if ds = [] then none else some (digitsToNat ds : ℤ)

/-! ### SlotSelector and CursorGate (src/utils/utils.go lines 498 to 529) -/

/-- The Go expression int64(cycleDays * 24 * 60 * 60): the float product
truncated to an integer (floor for the non-negative values in play),
clamped at 0 from below by toNat (negative cycle lengths never occur). -/
def secondsPerCycle (cycleDays : ℚ) : ℕ :=
  ⌊cycleDays * 86400⌋.toNat

/-- getIndexByTime from src/utils/utils.go lines 521 to 529, with the call
time.Now().Unix() made an explicit argument now. A none result models the
Go runtime panic (integer divide by zero) raised by the expression
now % secondsPerCycle when the truncated cycle length is zero. -/
def getIndexByTime (now itemCount : ℕ) (cycleDays : ℚ) : Option ℕ :=
  if itemCount = 0 then some 0
  else
    let c := secondsPerCycle cycleDays
    if c = 0 then none
    else some (now % c * itemCount / c)

/-- Result of ProcessSlot: a Go error, or an index with a proceed flag. -/
inductive SlotDecision where
  | err (msg : String)
  | ok (index : ℕ) (proceed : Bool)
deriving DecidableEq

/-- ProcessSlot from src/utils/utils.go lines 498 to 519. prevFetch models
GetS3Object on the prev index key: none is a fetch error. The parse error of
strconv.Atoi is discarded in the source (prevIndex defaults to 0). The outer
none again models the division by zero panic inside getIndexByTime. -/
def ProcessSlot (now itemCount : ℕ) (cycleDays : ℚ) (prevFetch : Option String) :
    Option SlotDecision :=
  if itemCount = 0 then some (.err "no items available")
  else
    match getIndexByTime now itemCount cycleDays with
    | none => none
    | some index =>
      match prevFetch with
      | none => some (.err "failed to fetch prev_index")
      | some s =>
        let prevIndex : ℤ := (goAtoi s).getD 0
        if prevIndex = (index : ℤ) then some (.ok index false)
        else some (.ok index true)

/-- Left boundary of window k when a cycle of c seconds is split over n
items: the least s with k ≤ s * n / c, that is the ceiling of k * c / n. -/
def slotBoundary (c n k : ℕ) : ℕ :=
  (k * c + (n - 1)) / n

/-! ### RetryingCaller (src/utils/utils.go lines 376 to 419)

The remote call client.Request(q) is modelled as a stub function from the
attempt number (0 based) to a result; the backoff sleep and the jitter are
pure waiting with no influence on control flow and are not modelled. -/

/-- A Go error as seen by the retry loop: the status code that findStatusCode
extracts from the goark errs chain (0 when absent), and the text of
err.Error(). -/
structure GoError where
  status : ℕ
  msg : String
deriving DecidableEq

/-- isRetryableError from src/utils/utils.go lines 410 to 419: HTTP status
429, or an error text containing the substring EOF. -/
def isRetryableError (e : GoError) : Bool :=
  e.status = 429 || goContains e.msg "EOF"

/-- The error requestWithBackoff surfaces: the wrapped exhaustion error
(fmt.Errorf with a percent w verb keeps the cause), a fatal error returned
as is, or the unreachable fall-through after the loop. -/
inductive RWBError where
  | maxRetries (last : GoError)
  | fatal (e : GoError)
  | unexpected
deriving DecidableEq

/-- The text of the error requestWithBackoff returns, after fmt.Errorf
formatting. -/
def RWBError.message : RWBError → String
  | .maxRetries last => "max retries reached, last error: " ++ last.msg
  | .fatal e => e.msg
  | .unexpected => "unexpected: loop completed without return"

/-- The loop body of requestWithBackoff (src/utils/utils.go lines 376 to
408). i is the Go loop variable; fuel is the number of loop iterations still
allowed, maxRetryCount - i at every call, so that the recursion is
structural. The second component counts the attempts (calls of the stub)
made. -/
def rwbLoop (call : ℕ → Except GoError β) (maxRetryCount : ℕ) :
    ℕ → ℕ → Except RWBError β × ℕ
  | _, 0 => (.error .unexpected, 0)
  | i, fuel + 1 =>
    match call i with
    | .ok body => (.ok body, 1)
    | .error e =>
      if isRetryableError e then
        if i = maxRetryCount - 1 then (.error (.maxRetries e), 1)
        else
          let rest := rwbLoop call maxRetryCount (i + 1) fuel
          (rest.1, rest.2 + 1)
      else (.error (.fatal e), 1)

/-- requestWithBackoff from src/utils/utils.go lines 376 to 408: run the loop
from i = 0 with maxRetryCount iterations available. -/
def requestWithBackoff (call : ℕ → Except GoError β) (maxRetryCount : ℕ) :
    Except RWBError β × ℕ :=
  rwbLoop call maxRetryCount 0 maxRetryCount

/-- Equality of Except values is decidable when it is on both sides. -/
instance {ε α : Type _} [DecidableEq ε] [DecidableEq α] : DecidableEq (Except ε α)
  | .error a, .error b =>
      if h : a = b then .isTrue (by rw [h])
      else .isFalse (by intro he; injection he; exact h (by assumption))
  | .error _, .ok _ => .isFalse (by intro he; injection he)
  | .ok _, .error _ => .isFalse (by intro he; injection he)
  | .ok a, .ok b =>
      if h : a = b then .isTrue (by rw [h])
      else .isFalse (by intro he; injection he; exact h (by assumption))

/-! ### Item data model (src/utils/models.go and goark entity.Item) -/

/-- KindleBook from src/utils/models.go. entity.Date is modelled as Unix
seconds (ℤ); the Go zero time is 0. Prices are ℚ standing for float64. -/
structure KindleBook where
  asin : String
  title : String
  releaseDate : ℤ
  currentPrice : ℚ
  maxPrice : ℚ
  url : String
deriving DecidableEq

/-- The Go zero value of KindleBook. -/
def zeroBook : KindleBook :=
  { asin := "", title := "", releaseDate := 0, currentPrice := 0, maxPrice := 0, url := "" }

/-- GetBook from src/utils/utils.go lines 297 to 304: first book with the
given ASIN, else the zero value. -/
def GetBook (asin : String) : List KindleBook → KindleBook
  | [] => zeroBook
  | b :: rest => if asin = b.asin then b else GetBook asin rest

/-- The slice of a goark entity.Item that the sale checker reads: ASIN,
title, the binding classification, whether Offers carry a first listing with
a price (hasPrice), that price, its loyalty points, the detail page URL and
the release date (0 when absent, like the Go zero value). -/
structure Item where
  asin : String
  title : String
  binding : String
  hasPrice : Bool
  price : ℚ
  points : ℤ
  url : String
  releaseDate : ℤ
deriving DecidableEq

/-- MakeBook from src/utils/utils.go lines 306 to 324. -/
def MakeBook (item : Item) (maxPrice : ℚ) : KindleBook :=
  { asin := item.asin
    title := item.title
    releaseDate := item.releaseDate
    currentPrice := item.price
    maxPrice := if 0 < maxPrice then maxPrice else item.price
    url := item.url }

/-- FetchNotifiedASINs from src/utils/utils.go lines 441 to 453, with the
fetched list and the clock as arguments. The Go map keyed by ASIN is
modelled as a lookup function; iteration over the list makes a later entry
with the same ASIN overwrite an earlier one. -/
def fetchStep (now : ℤ) (m : String → Option KindleBook) (b : KindleBook) :
    String → Option KindleBook :=
  if now < b.releaseDate then (fun a => if a = b.asin then some b else m a) else m

/-- FetchNotifiedASINs proper: keep books released strictly after now. -/
def FetchNotifiedASINs (books : List KindleBook) (now : ℤ) :
    String → Option KindleBook :=
  books.foldl (fetchStep now) (fun _ => none)

/-! ### SegmentedCursorAdvancer, the sale checker
(src/cmd/sale-checker/main.go) -/

/-- The three fields of checkerConfigs.SaleChecker that decide sale
conditions (the struct definition itself lives outside src; the field types
are fixed by their uses at src/cmd/sale-checker/main.go lines 283 to 316:
all Go int). -/
structure SaleCheckerConfig where
  saleThreshold : ℤ
  pointPercent : ℤ
  priceChangeAmount : ℤ
deriving DecidableEq

/-- Tags for the three conditions of extractSaleConditions, standing for the
three formatted strings (their exact text is not consulted anywhere, only
whether the list is empty). -/
inductive SaleCondition where
  | priceGap
  | points
  | pointPct
deriving DecidableEq

/-- extractSaleConditions from src/cmd/sale-checker/main.go lines 278 to
295. Note on the third test: Go divides float64 points by a zero price to
plus infinity or NaN, while ℚ division by zero yields 0; no price in the
claims under study is 0. -/
def extractSaleConditions (item : Item) (maxPrice : ℚ) (cfg : SaleCheckerConfig) :
    List SaleCondition :=
  (if (cfg.saleThreshold : ℚ) ≤ maxPrice - item.price then [.priceGap] else []) ++
  (if cfg.saleThreshold ≤ item.points then [.points] else []) ++
  (if (cfg.pointPercent : ℚ) ≤ (item.points : ℚ) / item.price * 100 then [.pointPct] else [])

/-- isKindle from src/cmd/sale-checker/main.go lines 248 to 250. -/
def isKindle (item : Item) : Bool :=
  item.binding = "Kindle版"

/-- The response loop of checkBooksForSales (src/cmd/sale-checker/main.go
lines 204 to 244): per response item, skip non Kindle bindings, keep the
stored book unchanged when the price is missing, drop books that meet a
sale condition (they are notified instead), and otherwise store the updated
book with the ratcheted maximum price. checkMissingASINs and
checkPriceChange only emit notifications and are dropped here. -/
def processItems (segmentBooks : List KindleBook) (cfg : SaleCheckerConfig) :
    List Item → List KindleBook
  | [] => []
  | item :: rest =>
    if ¬ isKindle item then processItems segmentBooks cfg rest
    else
      let book := GetBook item.asin segmentBooks
      if ¬ item.hasPrice then book :: processItems segmentBooks cfg rest
      else
        let maxPrice := max book.maxPrice item.price
        if extractSaleConditions item maxPrice cfg ≠ [] then
          processItems segmentBooks cfg rest
        else MakeBook item maxPrice :: processItems segmentBooks cfg rest

/-- checkBooksForSales from src/cmd/sale-checker/main.go lines 181 to 246:
resp is the GetItems result, none being a failed batch lookup, in which
case Go returns the untouched segment together with the error (and the
caller aborts the run). -/
def checkBooksForSales (segmentBooks : List KindleBook) (resp : Option (List Item))
    (cfg : SaleCheckerConfig) : Except (List KindleBook) (List KindleBook) :=
  match resp with
  | none => .error segmentBooks
  | some items => .ok (processItems segmentBooks cfg items)

/-- getLastProcessedIndex from src/cmd/sale-checker/main.go lines 168 to
179: fetched is the S3 read (none on error, giving 0), and a string that
does not scan as an integer also gives 0. -/
def getLastProcessedIndex (fetched : Option String) : ℤ :=
  match fetched with
  | none => 0
  | some s => (goScanInt s).getD 0

/-- The Go slice books[a:b] for 0 ≤ a ≤ b ≤ length. -/
def goSlice (books : List KindleBook) (a b : ℤ) : List KindleBook :=
  (books.take b.toNat).drop a.toNat

/-- getNextProcessingSegment from src/cmd/sale-checker/main.go lines 143 to
166: on an empty collection return an empty segment; reset the start index
to 0 when it is at least the collection length; the window size is the
constant 10. A none result models the Go slice bounds panic that a negative
start index (never reset by the source) would raise at books[start:stop]. -/
def getNextProcessingSegment (books : List KindleBook) (fetched : Option String) :
    Option (List KindleBook × ℤ × ℤ) :=
  if books.isEmpty then some ([], 0, 0)
  else
    let start0 := getLastProcessedIndex fetched
    let start := if (books.length : ℤ) ≤ start0 then 0 else start0
    let stop := min (start + 10) (books.length : ℤ)
    if 0 ≤ start then some (goSlice books start stop, start, stop)
    else none

/-- replaceProcessedSegment from src/cmd/sale-checker/main.go lines 323 to
328: splice the processed books over the window. (The Go source builds this
by appending to a sub-slice aliasing the original backing array; since the
processed list never exceeds the window, the resulting value is exactly
this splice.) -/
def replaceProcessedSegment (allBooks processedBooks : List KindleBook)
    (startIndex endIndex : ℤ) : List KindleBook :=
  allBooks.take startIndex.toNat ++ processedBooks ++ allBooks.drop endIndex.toNat

/-- Outcome of one sale checker run: a runtime panic while slicing, an
aborted run (batch lookup failure, nothing persisted), or the persisted
cursor and the rewritten collection. -/
inductive RunOutcome where
  | panicked
  | failed
  | ok (cursor : ℤ) (collection : List KindleBook)
deriving DecidableEq

/-- The segment handling core of process (src/cmd/sale-checker/main.go lines
71 to 82): pick the window, run the batch lookup, persist
startIndex + len(processedBooks) as the new cursor and splice the processed
books over the window. The later canonical re-sort and the skip of an
unchanged write do not alter cursor or membership and are outside this
function. -/
def saleCheckerRun (allBooks : List KindleBook) (prevRaw : Option String)
    (resp : Option (List Item)) (cfg : SaleCheckerConfig) : RunOutcome :=
  match getNextProcessingSegment allBooks prevRaw with
  | none => .panicked
  | some (seg, s, e) =>
    match checkBooksForSales seg resp cfg with
    | .error _ => .failed
    | .ok processed =>
        .ok (s + processed.length) (replaceProcessedSegment allBooks processed s e)

/-! ### Concrete data for scenario claims and counterexamples -/

/-- A concrete stored book, used by scenario claims. -/
def demoBook (i : ℕ) : KindleBook :=
  { asin := "B" ++ Nat.repr i, title := "T" ++ Nat.repr i,
    releaseDate := (i : ℤ), currentPrice := 500, maxPrice := 500, url := "" }

/-- A concrete collection of 25 stored books. -/
def demoBooks : List KindleBook :=
  [demoBook 0, demoBook 1, demoBook 2, demoBook 3, demoBook 4,
   demoBook 5, demoBook 6, demoBook 7, demoBook 8, demoBook 9,
   demoBook 10, demoBook 11, demoBook 12, demoBook 13, demoBook 14,
   demoBook 15, demoBook 16, demoBook 17, demoBook 18, demoBook 19,
   demoBook 20, demoBook 21, demoBook 22, demoBook 23, demoBook 24]

/-- The window demoBooks[20:25]. -/
def demoSeg : List KindleBook :=
  [demoBook 20, demoBook 21, demoBook 22, demoBook 23, demoBook 24]

/-- A response item that matches a stored book and changes nothing. -/
def demoItem (b : KindleBook) : Item :=
  { asin := b.asin, title := b.title, binding := "Kindle版", hasPrice := true,
    price := b.currentPrice, points := 0, url := b.url, releaseDate := b.releaseDate }

/-- Sale checker thresholds of realistic size. -/
def demoCfg : SaleCheckerConfig :=
  { saleThreshold := 1000, pointPercent := 20, priceChangeAmount := 100 }

/-- Two books, the second of which will be missing from the lookup
response. -/
def bookA : KindleBook :=
  { asin := "A", title := "Book A", releaseDate := 0,
    currentPrice := 100, maxPrice := 100, url := "" }

/-- See bookA. -/
def bookB : KindleBook :=
  { asin := "B", title := "Book B", releaseDate := 0,
    currentPrice := 100, maxPrice := 100, url := "" }

/-- A response containing only bookA, unchanged. -/
def itemA : Item :=
  { asin := "A", title := "Book A", binding := "Kindle版", hasPrice := true,
    price := 100, points := 0, url := "", releaseDate := 0 }

/-- Two notified books sharing one ASIN, both released after time 5. -/
def dupA1 : KindleBook :=
  { asin := "A", title := "first", releaseDate := 10,
    currentPrice := 0, maxPrice := 0, url := "" }

/-- See dupA1. -/
def dupA2 : KindleBook :=
  { asin := "A", title := "second", releaseDate := 10,
    currentPrice := 0, maxPrice := 0, url := "" }

/-- The duplicate ASIN list. -/
def dupBooks : List KindleBook :=
  [dupA1, dupA2]

/-- A remote call stub that is rate limited twice, then succeeds. -/
def stubCall : ℕ → Except GoError String := fun i =>
  if i < 2 then .error { status := 429, msg := "too many requests" } else .ok "body"

/-- A remote call stub that is rate limited on every attempt. -/
def rateLimitedCall : ℕ → Except GoError String := fun _ =>
  .error { status := 429, msg := "too many requests" }

/-- A remote call stub that always fails fatally. -/
def fatalCall : ℕ → Except GoError String := fun _ =>
  .error { status := 400, msg := "invalid request" }

/-! ### Helper lemmas -/

/-- A one day cycle is 86400 seconds after truncation. -/
theorem secondsPerCycle_one : secondsPerCycle 1 = 86400 := by
  have h : ⌊((1 : ℚ) * 86400)⌋ = 86400 := by norm_num
  rw [secondsPerCycle, h]
  rfl

/-- A cycle of a binary millionth of a day truncates to 0 seconds. -/
theorem secondsPerCycle_tiny : secondsPerCycle (1 / 1048576) = 0 := by
  have h : ⌊((1 / 1048576 : ℚ) * 86400)⌋ = 0 := by norm_num
  rw [secondsPerCycle, h]
  rfl

/-- The slot boundary is the least second mapped at or beyond window k. -/
theorem slotBoundary_le_iff (c n k s : ℕ) (hn : 0 < n) :
    slotBoundary c n k ≤ s ↔ k * c ≤ s * n := by
  rw [slotBoundary, Nat.div_le_iff_le_mul_add_pred hn, mul_comm n s]
  generalize k * c = a
  generalize s * n = b
  omega

/-- Being strictly left of the slot boundary of window k. -/
theorem lt_slotBoundary_iff (c n k s : ℕ) (hn : 0 < n) :
    s < slotBoundary c n k ↔ s * n < k * c := by
  rw [slotBoundary, Nat.lt_iff_add_one_le, Nat.le_div_iff_mul_le hn, add_mul, one_mul]
  generalize s * n = b
  generalize k * c = a
  omega

/-- A second is mapped to window k exactly when it lies between the
boundaries of windows k and k + 1. -/
theorem slot_window_iff (c n k s : ℕ) (hn : 0 < n) (hc : 0 < c) :
    s * n / c = k ↔ slotBoundary c n k ≤ s ∧ s < slotBoundary c n (k + 1) := by
  have h1 : s * n / c = k ↔ k ≤ s * n / c ∧ s * n / c < k + 1 := by omega
  rw [h1, Nat.le_div_iff_mul_le hc, Nat.div_lt_iff_lt_mul hc,
    slotBoundary_le_iff c n k s hn, lt_slotBoundary_iff c n (k + 1) s hn]

/-- The 0th boundary is the cycle start. -/
theorem slotBoundary_zero (c n : ℕ) (hn : 0 < n) : slotBoundary c n 0 = 0 := by
  have h : 0 * c + (n - 1) = n - 1 := by omega
  rw [slotBoundary, h]
  exact Nat.div_eq_of_lt (by omega)

/-- The nth boundary is the cycle end. -/
theorem slotBoundary_top (c n : ℕ) (hn : 0 < n) : slotBoundary c n n = c := by
  rw [slotBoundary, Nat.mul_add_div hn, Nat.div_eq_of_lt (by omega), Nat.add_zero]

/-- Boundaries are monotone in the window number. -/
theorem slotBoundary_mono (c n k : ℕ) : slotBoundary c n k ≤ slotBoundary c n (k + 1) :=
  Nat.div_le_div_right (Nat.add_le_add_right (Nat.mul_le_mul_right c (Nat.le_succ k)) (n - 1))

/-- A telescoping sum of consecutive truncated differences. -/
theorem sum_consecutive_sub (f : ℕ → ℕ) (hf : ∀ k, f k ≤ f (k + 1)) (m : ℕ) :
    ∑ k ∈ Finset.range m, (f (k + 1) - f k) = f m - f 0 := by
  induction m with
  | zero => simp
  | succ p ih =>
      rw [Finset.sum_range_succ, ih]
      have h1 := hf p
      have h2 : f 0 ≤ f p := by
        clear ih h1
        induction p with
        | zero => exact le_refl _
        | succ q ihq => exact le_trans ihq (hf q)
      omega

/-- The retry loop, started at attempt i with retryable failures up to
attempt k and a success at attempt k, returns that success after k - i + 1
calls of the stub. -/
theorem rwbLoop_ok (call : ℕ → Except GoError β) (m k : ℕ) (b : β)
    (hsucc : call k = .ok b) :
    ∀ fuel i, i + fuel = m → i ≤ k → k < m →
      (∀ j, i ≤ j → j < k → ∃ e, call j = .error e ∧ isRetryableError e = true) →
      rwbLoop call m i fuel = (.ok b, k - i + 1) := by
  intro fuel
  induction fuel with
  | zero => intro i h1 h2 h3 _; omega
  | succ f ih =>
      intro i h1 h2 h3 h4
      by_cases hik : i = k
      · subst hik
        simp [rwbLoop, hsucc]
      · obtain ⟨e, he, hr⟩ := h4 i (le_refl i) (by omega)
        have hne : ¬ i = m - 1 := by omega
        have hrec := ih (i + 1) (by omega) (by omega) h3
          (fun j hj1 hj2 => h4 j (by omega) hj2)
        have hcount : k - (i + 1) + 1 + 1 = k - i + 1 := by omega
        simp [rwbLoop, he, hr, hne, hrec, hcount]

/-- The retry loop, started at attempt i with every attempt failing
retryably, exhausts the budget and wraps the failure of the last attempt. -/
theorem rwbLoop_exhaust (call : ℕ → Except GoError β) (m : ℕ) (e : GoError)
    (hlast : call (m - 1) = .error e)
    (hretry : ∀ j, j < m → ∃ x, call j = .error x ∧ isRetryableError x = true) :
    ∀ fuel i, i + fuel = m → i < m →
      rwbLoop call m i fuel = (.error (.maxRetries e), m - i) := by
  intro fuel
  induction fuel with
  | zero => intro i h1 h2; omega
  | succ f ih =>
      intro i h1 h2
      obtain ⟨x, hx, hr⟩ := hretry i h2
      by_cases him : i = m - 1
      · subst him
        have hxe : x = e := by
          rw [hx] at hlast
          exact Except.error.inj hlast
        subst hxe
        have hmi : m - (m - 1) = 1 := by omega
        simp [rwbLoop, hx, hr, hmi]
      · have hrec := ih (i + 1) (by omega) (by omega)
        have hcount : m - (i + 1) + 1 = m - i := by omega
        simp [rwbLoop, hx, hr, him, hrec, hcount]

/-- The asin of GetBook is the one asked for, unless the zero book came
back. -/
theorem GetBook_asin (asin : String) :
    ∀ l : List KindleBook, (GetBook asin l).asin = asin ∨ GetBook asin l = zeroBook := by
  intro l
  induction l with
  | nil => exact Or.inr rfl
  | cons b rest ih =>
      rw [GetBook]
      by_cases h : asin = b.asin
      · rw [if_pos h]
        exact Or.inl h.symm
      · rw [if_neg h]
        exact ih

/-- Every book that the response loop emits carries the asin of some
response item, or the empty asin of the zero book. -/
theorem processItems_asin (seg : List KindleBook) (cfg : SaleCheckerConfig) :
    ∀ items : List Item, ∀ b ∈ processItems seg cfg items,
      b.asin = "" ∨ ∃ it ∈ items, b.asin = it.asin := by
  intro items
  induction items with
  | nil => intro b hb; rw [processItems] at hb; exact absurd hb (List.not_mem_nil b)
  | cons item rest ih =>
      intro b hb
      rw [processItems] at hb
      have hstep : ∀ c ∈ processItems seg cfg rest,
          c.asin = "" ∨ ∃ it ∈ item :: rest, c.asin = it.asin := by
        intro c hc
        rcases ih c hc with h | ⟨it, hit, hasin⟩
        · exact Or.inl h
        · exact Or.inr ⟨it, List.mem_cons_of_mem item hit, hasin⟩
      by_cases hk : isKindle item
      · simp only [hk, not_true, if_false] at hb
        by_cases hp : item.hasPrice
        · simp only [hp, not_true, if_false] at hb
          by_cases hc : extractSaleConditions item
              (max (GetBook item.asin seg).maxPrice item.price) cfg ≠ []
          · rw [if_pos hc] at hb
            exact hstep b hb
          · rw [if_neg hc] at hb
            rcases List.mem_cons.mp hb with hbe | hbm
            · subst hbe
              exact Or.inr ⟨item, List.mem_cons_self item rest, rfl⟩
            · exact hstep b hbm
        · simp only [hp, not_false_eq_true, if_true] at hb
          rcases List.mem_cons.mp hb with hbe | hbm
          · subst hbe
            rcases GetBook_asin item.asin seg with h | h
            · exact Or.inr ⟨item, List.mem_cons_self item rest, h⟩
            · rw [h]
              exact Or.inl rfl
          · exact hstep b hbm
      · simp only [hk, not_false_eq_true, if_true] at hb
        exact hstep b hb

/-- Folding the notified map over a book list looks up as a backwards
search of the filtered list, falling back to the accumulator. -/
theorem fetchFold_lookup (now : ℤ) (a : String) :
    ∀ (books : List KindleBook) (m : String → Option KindleBook),
      List.foldl (fetchStep now) m books a =
        ((books.filter fun b => decide (now < b.releaseDate)).reverse.find?
            (fun b => decide (a = b.asin))).or (m a) := by
  intro books
  induction books with
  | nil => intro m; simp
  | cons b t ih =>
      intro m
      rw [List.foldl_cons, ih]
      by_cases hp : now < b.releaseDate
      · rw [List.filter_cons_of_pos (by simpa using hp), List.reverse_cons,
          List.find?_append]
        by_cases hq : a = b.asin
        · simp [fetchStep, hp, hq, Option.or_assoc]
        · simp [fetchStep, hp, hq, Option.or_assoc]
      · rw [List.filter_cons_of_neg (by simpa using hp)]
        simp [fetchStep, hp]

/-- The notified map, as a find over the reversed filtered list: the last
matching entry of the input wins. -/
theorem fetchNotified_eq_find (books : List KindleBook) (now : ℤ) (a : String) :
    FetchNotifiedASINs books now a =
      (books.filter fun b => decide (now < b.releaseDate)).reverse.find?
        (fun b => decide (a = b.asin)) := by
  rw [FetchNotifiedASINs, fetchFold_lookup]
  exact Option.or_none

/-- Whatever the notified map returns came from the input list, was
released strictly after now, and is stored under its own ASIN. -/
theorem fetchNotified_sound (books : List KindleBook) (now : ℤ) (a : String) (b : KindleBook)
    (h : FetchNotifiedASINs books now a = some b) :
    b ∈ books ∧ now < b.releaseDate ∧ b.asin = a := by
  rw [fetchNotified_eq_find] at h
  have hmem := List.mem_of_find?_eq_some h
  have hq := List.find?_some h
  rw [List.mem_reverse, List.mem_filter] at hmem
  refine ⟨hmem.1, by simpa using hmem.2, ?_⟩
  have hba : a = b.asin := by simpa using hq
  exact hba.symm

/-- On a non empty collection with a non degenerate cycle, getIndexByTime is
the floor expression of the source. -/
theorem getIndexByTime_eq (now n : ℕ) (cycleDays : ℚ) (hn : n ≠ 0)
    (hc : secondsPerCycle cycleDays ≠ 0) :
    getIndexByTime now n cycleDays =
      some (now % secondsPerCycle cycleDays * n / secondsPerCycle cycleDays) := by
  simp [getIndexByTime, hn, hc]

/-! ### Claim theorems -/

/-- Claim C1, counterexample: with n = 3 and cycleDays = 1 the due index at
secondsIntoCycle = 59999 is 2, not the claimed 1 (59999 lies in the third
8 hour window, which starts at 57600). -/
theorem c1_counterexample :
    getIndexByTime 59999 3 1 = some 2 ∧ getIndexByTime 59999 3 1 ≠ some 1 := by
  refine ⟨?_, ?_⟩ <;> · simp only [getIndexByTime, secondsPerCycle_one]; decide

/-- Claim C1 (amended): with a collection of size n = 3 and cycleDays = 1,
so each window is 8 hours, the due index of getIndexByTime is 0 at
secondsIntoCycle = 0, 1 at 28800, 2 at 59999 and 2 at 86399. -/
theorem c1_amended :
    getIndexByTime 0 3 1 = some 0 ∧ getIndexByTime 28800 3 1 = some 1 ∧
    getIndexByTime 59999 3 1 = some 2 ∧ getIndexByTime 86399 3 1 = some 2 := by
  refine ⟨?_, ?_, ?_, ?_⟩ <;> · simp only [getIndexByTime, secondsPerCycle_one]; decide

/-- Claim C5, counterexample: cycleDays may be positive while the truncated
cycle length is 0 seconds, in which case getIndexByTime does not produce an
index at all (the Go code panics dividing by zero), refuting the claim for
every positive cycleDays. -/
theorem c5_counterexample :
    (0 : ℚ) < 1 / 1048576 ∧ getIndexByTime 0 1 (1 / 1048576) = none := by
  constructor
  · norm_num
  · simp only [getIndexByTime, secondsPerCycle_tiny]
    rfl

/-- Claim C5 (amended): for every cycleDays whose truncated cycle length
cycleSeconds is positive and every collection size n > 0, the due index is
floor of secondsIntoCycle times n over cycleSeconds and lies in [0, n); the
preimages of the n index values are the half open intervals between
consecutive slot boundaries, which start at 0, end at cycleSeconds, and
have widths summing exactly to cycleSeconds. -/
theorem c5_amended (cycleDays : ℚ) (n now : ℕ) (hn : 0 < n)
    (hc : 0 < secondsPerCycle cycleDays) :
    getIndexByTime now n cycleDays =
      some (now % secondsPerCycle cycleDays * n / secondsPerCycle cycleDays) ∧
    (∀ idx, getIndexByTime now n cycleDays = some idx → idx < n) ∧
    (∀ k, k < n → ∀ s, s < secondsPerCycle cycleDays →
        (s * n / secondsPerCycle cycleDays = k ↔
          slotBoundary (secondsPerCycle cycleDays) n k ≤ s ∧
            s < slotBoundary (secondsPerCycle cycleDays) n (k + 1))) ∧
    slotBoundary (secondsPerCycle cycleDays) n 0 = 0 ∧
    slotBoundary (secondsPerCycle cycleDays) n n = secondsPerCycle cycleDays ∧
    ∑ k ∈ Finset.range n,
        (slotBoundary (secondsPerCycle cycleDays) n (k + 1) -
          slotBoundary (secondsPerCycle cycleDays) n k) = secondsPerCycle cycleDays := by
  have heq := getIndexByTime_eq now n cycleDays hn.ne' hc.ne'
  refine ⟨heq, ?_, ?_, slotBoundary_zero _ n hn, slotBoundary_top _ n hn, ?_⟩
  · intro idx hidx
    rw [heq] at hidx
    rw [← Option.some.inj hidx]
    rw [Nat.div_lt_iff_lt_mul hc]
    calc now % secondsPerCycle cycleDays * n
        < secondsPerCycle cycleDays * n :=
          mul_lt_mul_of_pos_right (Nat.mod_lt _ hc) hn
      _ = n * secondsPerCycle cycleDays := mul_comm _ n
  · intro k _ s _
    exact slot_window_iff _ n k s hn hc
  · rw [sum_consecutive_sub _ (fun k => slotBoundary_mono _ n k) n,
      slotBoundary_top _ n hn, slotBoundary_zero _ n hn]
    exact Nat.sub_zero _

/-- Claim C5, witness of the amended theorem at cycleDays = 1, n = 3,
now = 59999. -/
theorem c5_witness :
    0 < secondsPerCycle 1 ∧
    getIndexByTime 59999 3 1 =
      some (59999 % secondsPerCycle 1 * 3 / secondsPerCycle 1) := by
  have hc : 0 < secondsPerCycle 1 := by rw [secondsPerCycle_one]; decide
  exact ⟨hc, (c5_amended 1 3 59999 (by decide) hc).1⟩

/-- Claim C6: ProcessSlot errors on an empty collection; on a non empty
collection (with a sane cycle and a readable previous index) it skips
exactly when the stored previous index equals the freshly computed due
index, and otherwise proceeds with that fresh index. -/
theorem c6_cursor_gate (now itemCount : ℕ) (cycleDays : ℚ) (s : String)
    (hn : 0 < itemCount) (hc : 0 < secondsPerCycle cycleDays) :
    (∀ prevFetch, ProcessSlot now 0 cycleDays prevFetch = some (.err "no items available")) ∧
    ∃ idx, getIndexByTime now itemCount cycleDays = some idx ∧
      ((goAtoi s).getD 0 = (idx : ℤ) →
        ProcessSlot now itemCount cycleDays (some s) = some (.ok idx false)) ∧
      ((goAtoi s).getD 0 ≠ (idx : ℤ) →
        ProcessSlot now itemCount cycleDays (some s) = some (.ok idx true)) := by
  have heq := getIndexByTime_eq now itemCount cycleDays hn.ne' hc.ne'
  refine ⟨fun prevFetch => by simp [ProcessSlot], ?_⟩
  refine ⟨_, heq, fun hpe => ?_, fun hpe => ?_⟩
  · simp only [ProcessSlot, if_neg hn.ne', heq]
    rw [if_pos hpe]
  · simp only [ProcessSlot, if_neg hn.ne', heq]
    rw [if_neg hpe]

/-- Claim C6, witness: an empty collection errors; with 3 items at time 0
of a 1 day cycle the due index is 0, a stored 0 skips and a stored 2
proceeds. -/
theorem c6_witness :
    ProcessSlot 0 0 1 (some "7") = some (.err "no items available") ∧
    ProcessSlot 0 3 1 (some "0") = some (.ok 0 false) ∧
    ProcessSlot 0 3 1 (some "2") = some (.ok 0 true) := by
  have hc : 0 < secondsPerCycle 1 := by rw [secondsPerCycle_one]; decide
  obtain ⟨he, idx, hidx, heq, hne⟩ := c6_cursor_gate 0 3 1 "0" (by decide) hc
  obtain ⟨-, idx2, hidx2, -, hne2⟩ := c6_cursor_gate 0 3 1 "2" (by decide) hc
  have hval : getIndexByTime 0 3 1 = some 0 := by
    simp only [getIndexByTime, secondsPerCycle_one]
    decide
  have hidx0 : idx = 0 := Option.some.inj (hidx.symm.trans hval)
  have hidx20 : idx2 = 0 := Option.some.inj (hidx2.symm.trans hval)
  subst hidx0
  subst hidx20
  exact ⟨he (some "7"), heq (by decide), hne2 (by decide)⟩

/-- Claim C2: a call that fails retryably on each of its first k invocations
and succeeds on invocation k + 1, with maxRetryCount > k, makes
requestWithBackoff return that success after exactly k + 1 attempts. -/
theorem c2_retry_then_success (call : ℕ → Except GoError β) (k maxRetryCount : ℕ) (b : β)
    (hk : k < maxRetryCount)
    (hfail : ∀ j, j < k → ∃ e, call j = .error e ∧ isRetryableError e = true)
    (hsucc : call k = .ok b) :
    requestWithBackoff call maxRetryCount = (.ok b, k + 1) := by
  have h := rwbLoop_ok call maxRetryCount k b hsucc maxRetryCount 0 (by omega) (by omega)
    hk (fun j _ hj => hfail j hj)
  simpa [requestWithBackoff] using h

/-- Claim C2, witness: a stub rate limited twice and then successful, with
maxRetryCount = 3, succeeds after exactly 3 attempts. -/
theorem c2_witness : requestWithBackoff stubCall 3 = (.ok "body", 3) :=
  c2_retry_then_success stubCall 2 3 "body" (by decide)
    (fun j hj => ⟨{ status := 429, msg := "too many requests" },
      by simp [stubCall, hj], by decide⟩)
    (by simp [stubCall])

/-- Claim C4, counterexample: when every attempt is rate limited the
returned error wraps the last cause, but its text is the fixed string
"max retries reached, last error: ..." which does not name the attempt
count (here 3). -/
theorem c4_counterexample :
    requestWithBackoff rateLimitedCall 3 =
      (.error (.maxRetries { status := 429, msg := "too many requests" }), 3) ∧
    (RWBError.maxRetries { status := 429, msg := "too many requests" }).message =
      "max retries reached, last error: too many requests" ∧
    goContains "max retries reached, last error: too many requests" "3" = false := by
  refine ⟨by decide, rfl, by decide⟩

/-- Claim C4 (amended): when every one of the maxRetryCount attempts fails
with a retryable error, requestWithBackoff makes exactly maxRetryCount
attempts and returns a single wrapped error whose message is the fixed
prefix followed by the last underlying cause, which it wraps; the attempt
count does not appear in the message. -/
theorem c4_amended (call : ℕ → Except GoError β) (m : ℕ) (e : GoError) (hm : 0 < m)
    (hretry : ∀ j, j < m → ∃ x, call j = .error x ∧ isRetryableError x = true)
    (hlast : call (m - 1) = .error e) :
    requestWithBackoff call m = (.error (.maxRetries e), m) ∧
    (RWBError.maxRetries e).message = "max retries reached, last error: " ++ e.msg := by
  refine ⟨?_, rfl⟩
  have h := rwbLoop_exhaust call m e hlast hretry m 0 (by omega) hm
  simpa [requestWithBackoff] using h

/-- Claim C4, witness of the amended theorem: three rate limited attempts
exhaust a budget of 3 and wrap the last failure. -/
theorem c4_witness :
    requestWithBackoff rateLimitedCall 3 =
      (.error (.maxRetries { status := 429, msg := "too many requests" }), 3) :=
  (c4_amended rateLimitedCall 3 { status := 429, msg := "too many requests" } (by decide)
    (fun j _ => ⟨{ status := 429, msg := "too many requests" }, rfl, by decide⟩) rfl).1

/-- Claim C9: a fatal (non retryable) error on the first invocation makes
requestWithBackoff stop after exactly one attempt and return that error
unwrapped, for every maxRetryCount of at least 1. -/
theorem c9_fatal_first (call : ℕ → Except GoError β) (m : ℕ) (e : GoError) (hm : 1 ≤ m)
    (h0 : call 0 = .error e) (hfatal : isRetryableError e = false) :
    requestWithBackoff call m = (.error (.fatal e), 1) ∧
    (RWBError.fatal e).message = e.msg := by
  refine ⟨?_, rfl⟩
  obtain ⟨f, rfl⟩ : ∃ f, m = f + 1 := ⟨m - 1, by omega⟩
  simp [requestWithBackoff, rwbLoop, h0, hfatal]

/-- Claim C9, witness: a stub failing fatally is attempted once even with a
budget of 5. -/
theorem c9_witness :
    requestWithBackoff fatalCall 5 =
      (.error (.fatal { status := 400, msg := "invalid request" }), 1) :=
  (c9_fatal_first fatalCall 5 { status := 400, msg := "invalid request" } (by decide)
    rfl (by decide)).1

/-- Claim C3, counterexample: over the window [0, 2) of a two book
collection, with the lookup response missing bookB, the persisted cursor
becomes 0 + 1 = 1 (the number of processed items), but the rewritten
collection is just the processed book: bookB, whose lookup failed, is not
kept at its original position 1 - it is dropped from the collection. -/
theorem c3_counterexample :
    saleCheckerRun [bookA, bookB] (some "0") (some [itemA]) demoCfg = .ok 1 [bookA] ∧
    bookB ∉ ([bookA] : List KindleBook) ∧
    bookB.asin ∉ [itemA].map Item.asin := by
  refine ⟨?_, by decide, by decide⟩
  simp +decide [saleCheckerRun, getNextProcessingSegment, getLastProcessedIndex, goScanInt,
    digitsToNat, goSlice, checkBooksForSales, processItems, isKindle, GetBook, MakeBook,
    extractSaleConditions, replaceProcessedSegment, bookA, bookB, itemA, demoCfg,
    max_self, sub_self]

/-- Claim C3 (amended): after a run of the segmented sale checker over the
window [start, end), the persisted cursor is start + (number of processed
items), not end; the rewritten collection splices exactly the processed
items over the window, and every processed item carries the ASIN of some
response item (or the empty ASIN of the zero book), so a window item whose
ASIN is absent from the response is removed from the collection rather than
kept in place; a whole batch lookup failure instead aborts the run with
nothing persisted. -/
theorem c3_amended (allBooks : List KindleBook) (prevRaw : Option String)
    (items : List Item) (cfg : SaleCheckerConfig) (seg : List KindleBook) (s e : ℤ)
    (hseg : getNextProcessingSegment allBooks prevRaw = some (seg, s, e)) :
    saleCheckerRun allBooks prevRaw none cfg = .failed ∧
    saleCheckerRun allBooks prevRaw (some items) cfg =
      .ok (s + (processItems seg cfg items).length)
        (allBooks.take s.toNat ++ processItems seg cfg items ++ allBooks.drop e.toNat) ∧
    (∀ b ∈ processItems seg cfg items, b.asin = "" ∨ ∃ it ∈ items, b.asin = it.asin) := by
  refine ⟨?_, ?_, processItems_asin seg cfg items⟩
  · simp [saleCheckerRun, hseg, checkBooksForSales]
  · simp [saleCheckerRun, hseg, checkBooksForSales, replaceProcessedSegment]

/-- Claim C3, witness of the amended theorem on the two book collection:
the batch failure case aborts, and the partial response case persists
cursor 1 with the spliced collection. -/
theorem c3_witness :
    saleCheckerRun [bookA, bookB] (some "0") none demoCfg = .failed ∧
    saleCheckerRun [bookA, bookB] (some "0") (some [itemA]) demoCfg =
      .ok (0 + (processItems [bookA, bookB] demoCfg [itemA]).length)
        (([bookA, bookB].take (0 : ℤ).toNat) ++ processItems [bookA, bookB] demoCfg [itemA] ++
          ([bookA, bookB].drop (2 : ℤ).toNat)) := by
  have hseg : getNextProcessingSegment [bookA, bookB] (some "0") =
      some ([bookA, bookB], 0, 2) := by decide
  have h := c3_amended [bookA, bookB] (some "0") [itemA] demoCfg [bookA, bookB] 0 2 hseg
  exact ⟨h.1, h.2.1⟩

/-- Claim C7: with 25 books, window size 10 and persisted start 20, the
processed window is [20, 25) with 5 items; a fully successful run persists
cursor 20 + 5 = 25 and leaves the collection unchanged; the next run finds
the out of range cursor 25 and wraps to start 0. -/
theorem c7_segment_scenario :
    getNextProcessingSegment demoBooks (some "20") = some (demoSeg, 20, 25) ∧
    demoSeg.length = 5 ∧
    saleCheckerRun demoBooks (some "20") (some (demoSeg.map demoItem)) demoCfg =
      .ok 25 demoBooks ∧
    getNextProcessingSegment demoBooks (some "25") = some (demoBooks.take 10, 0, 10) := by
  refine ⟨by decide, by decide, ?_, by decide⟩
  have hpi : processItems demoSeg demoCfg (demoSeg.map demoItem) = demoSeg := by
    simp +decide [demoSeg, demoBook, demoItem, demoCfg, processItems, isKindle, GetBook,
      MakeBook, extractSaleConditions, max_self, sub_self]
  have hseg : getNextProcessingSegment demoBooks (some "20") = some (demoSeg, 20, 25) := by
    decide
  simp only [saleCheckerRun, hseg, checkBooksForSales, hpi, replaceProcessedSegment]
  decide

/-- Claim C8, counterexample: a persisted cursor of -1 is outside [0, 25)
but is not reset to 0: the clamp only handles values at or above the
collection length, and the Go slice expression then panics on the negative
start index (modelled as none), refuting the claim for every persisted
value outside the range. -/
theorem c8_counterexample :
    demoBooks ≠ [] ∧ getLastProcessedIndex (some "-1") = -1 ∧
    getNextProcessingSegment demoBooks (some "-1") = none := by
  refine ⟨by decide, by decide, by decide⟩

/-- Claim C8 (amended): at the start of every segmented run over a non
empty collection of size n, if the persisted cursor parses to a non
negative value, the clamped start index is in [0, n): values at or above n
are reset to 0, smaller non negative values are kept, the window
[start, min(start + 10, n)) is then sliced out. (Negative persisted values
are never produced by the checker itself and are not clamped.) -/
theorem c8_amended (books : List KindleBook) (fetched : Option String)
    (hne : books ≠ []) (hnn : 0 ≤ getLastProcessedIndex fetched) :
    ∃ seg s e, getNextProcessingSegment books fetched = some (seg, s, e) ∧
      0 ≤ s ∧ s < (books.length : ℤ) ∧
      e = min (s + 10) (books.length : ℤ) ∧ seg = goSlice books s e ∧
      ((books.length : ℤ) ≤ getLastProcessedIndex fetched → s = 0) ∧
      (getLastProcessedIndex fetched < (books.length : ℤ) →
        s = getLastProcessedIndex fetched) := by
  have hie : books.isEmpty = false := by
    cases books with
    | nil => exact absurd rfl hne
    | cons b t => rfl
  have hlen : 0 < books.length := List.length_pos.mpr hne
  by_cases hcase : (books.length : ℤ) ≤ getLastProcessedIndex fetched
  · refine ⟨goSlice books 0 (min (0 + 10) (books.length : ℤ)), 0,
      min (0 + 10) (books.length : ℤ), ?_, le_refl 0, by exact_mod_cast hlen, rfl, rfl,
      fun _ => rfl, fun hlt => by omega⟩
    simp [getNextProcessingSegment, hie, if_pos hcase]
  · have hlt : getLastProcessedIndex fetched < (books.length : ℤ) := lt_of_not_le hcase
    refine ⟨goSlice books (getLastProcessedIndex fetched)
        (min (getLastProcessedIndex fetched + 10) (books.length : ℤ)),
      getLastProcessedIndex fetched,
      min (getLastProcessedIndex fetched + 10) (books.length : ℤ), ?_, hnn, hlt, rfl, rfl,
      fun hge => absurd hge hcase, fun _ => rfl⟩
    simp [getNextProcessingSegment, hie, if_neg hcase, hnn]

/-- Claim C8, witness of the amended theorem: a persisted 30 on the 25 book
collection is reset to a start index inside [0, 25). -/
theorem c8_witness :
    demoBooks ≠ [] ∧ 0 ≤ getLastProcessedIndex (some "30") ∧
    ∃ seg s e, getNextProcessingSegment demoBooks (some "30") = some (seg, s, e) ∧
      0 ≤ s ∧ s < (demoBooks.length : ℤ) := by
  refine ⟨by decide, by decide, ?_⟩
  obtain ⟨seg, s, e, h1, h2, h3, -⟩ := c8_amended demoBooks (some "30") (by decide) (by decide)
  exact ⟨seg, s, e, h1, h2, h3⟩

/-- Claim C10, counterexample: with two fetched books sharing an ASIN, both
released after now, the first one is in the input and strictly future, yet
absent from the returned map under every key - the map does not contain
exactly the strictly future fetched books. -/
theorem c10_counterexample :
    dupA1 ∈ dupBooks ∧ (5 : ℤ) < dupA1.releaseDate ∧
    ∀ a, FetchNotifiedASINs dupBooks 5 a ≠ some dupA1 := by
  refine ⟨by decide, by decide, fun a h => ?_⟩
  obtain ⟨-, -, hasin⟩ := fetchNotified_sound dupBooks 5 a dupA1 h
  rw [← hasin] at h
  have hval : FetchNotifiedASINs dupBooks 5 dupA1.asin = some dupA2 := by decide
  rw [hval] at h
  exact absurd (Option.some.inj h) (by decide)

/-- Claim C10 (amended): FetchNotifiedASINs returns a map keyed by ASIN;
every stored book comes from the fetched list, was released strictly after
now, and sits under its own ASIN; when the fetched ASINs are pairwise
distinct the map contains exactly the fetched books released strictly after
now, and books released at or before now are dropped. With duplicate ASINs
the last strictly future occurrence wins. -/
theorem c10_amended (books : List KindleBook) (now : ℤ)
    (hdist : books.Pairwise fun b c => b.asin ≠ c.asin) :
    (∀ a b, FetchNotifiedASINs books now a = some b →
      b ∈ books ∧ now < b.releaseDate ∧ b.asin = a) ∧
    (∀ b ∈ books, FetchNotifiedASINs books now b.asin =
      if now < b.releaseDate then some b else none) := by
  have hinj : ∀ x ∈ books, ∀ y ∈ books, x.asin = y.asin → x = y := by
    intro x hx y hy hxy
    by_cases hne : x = y
    · exact hne
    · exact absurd hxy (List.Pairwise.forall (fun p q h => fun he => h he.symm) hdist hx hy hne)
  refine ⟨fun a b h => fetchNotified_sound books now a b h, ?_⟩
  intro b hb
  by_cases hp : now < b.releaseDate
  · rw [if_pos hp, fetchNotified_eq_find]
    have hbmem : b ∈ (books.filter fun c => decide (now < c.releaseDate)).reverse := by
      rw [List.mem_reverse, List.mem_filter]
      exact ⟨hb, by simpa using hp⟩
    have hsome : ((books.filter fun c => decide (now < c.releaseDate)).reverse.find?
        (fun c => decide (b.asin = c.asin))).isSome := by
      rw [List.find?_isSome]
      exact ⟨b, hbmem, by simp⟩
    obtain ⟨x, hx⟩ := Option.isSome_iff_exists.mp hsome
    have hxmem := List.mem_of_find?_eq_some hx
    have hxq := List.find?_some hx
    rw [List.mem_reverse, List.mem_filter] at hxmem
    have hbax : b.asin = x.asin := by simpa using hxq
    have hxb : x = b := hinj x hxmem.1 b hb hbax.symm
    rw [hx, hxb]
  · rw [if_neg hp, fetchNotified_eq_find, List.find?_eq_none]
    intro x hxmem hxq
    rw [List.mem_reverse, List.mem_filter] at hxmem
    have hax : b.asin = x.asin := by simpa using hxq
    have hxb : x = b := hinj x hxmem.1 b hb hax.symm
    subst hxb
    exact hp (by simpa using hxmem.2)

/-- Claim C10, witness of the amended theorem: with two distinct ASINs and
now = -1, the strictly future bookA is stored under its ASIN. -/
theorem c10_witness :
    ([bookA, bookB] : List KindleBook).Pairwise (fun b c => b.asin ≠ c.asin) ∧
    FetchNotifiedASINs [bookA, bookB] (-1) bookA.asin = some bookA := by
  have hd : ([bookA, bookB] : List KindleBook).Pairwise (fun b c => b.asin ≠ c.asin) := by
    decide
  refine ⟨hd, ?_⟩
  have h := (c10_amended [bookA, bookB] (-1) hd).2 bookA (by decide)
  rw [h, if_pos (by decide)]

end KindleBot
